import Mathlib

/-!
Verification development for the trevo.rs build-time content pipeline.

The embedded code comes from the repository sources:
* `createConfig` / `generateStorkIndex` — the search-index builder
  (src/data/projects.ts, the stork segment, lines 148–184);
* the projects page `getStaticProps` with its `revalidate: ms('30min') / 1000`
  budget (src/data/projects.ts, lines 265–275).

Components whose implementation files (lib/posts, lib/rss, lib/github) are not
part of the available sources are modelled from the specification; each such
definition carries a doc comment starting with "Modelled from the spec:".
-/

namespace TrevoRs

/-- JavaScript `String.prototype.replace` with a string pattern replaces only
the first occurrence of the pattern, scanning left to right; if the pattern
does not occur the string is returned unchanged. This is the auxiliary
recursion over the character list. -/
def jsReplaceFirstAux (repl pat : List Char) : List Char → List Char
  | [] => []
  | c :: rest =>
    if pat <+: c :: rest then repl ++ (c :: rest).drop pat.length
    else c :: jsReplaceFirstAux repl pat rest

/-- JavaScript `s.replace(pat, repl)` for a string pattern, as used at
src/data/projects.ts line 162: `fileName.replace(".md", "")`. -/
def jsReplaceFirst (s pat repl : String) : String :=
  ⟨jsReplaceFirstAux repl.data pat.data s.data⟩

/-- Parsed frontmatter of a content file: the `data` object produced by
gray-matter from the header block.  The calendar date is represented by a
totally ordered code (e.g. days since epoch); the loader rejects files whose
date does not parse, so only parsed dates appear here. -/
structure Frontmatter where
  title : String
  date : Nat
  tags : List String
  description : String
  draft : Bool
deriving Repr, DecidableEq

/-- A content file of the posts directory: its filename, parsed frontmatter
and raw body. -/
structure ContentFile where
  fileName : String
  fm : Frontmatter
  body : String
deriving Repr, DecidableEq

/-- One `files` entry of the stork configuration, as interpolated at
src/data/projects.ts lines 160–164. -/
structure ConfigEntry where
  path : String
  url : String
  title : String
deriving Repr, DecidableEq

/-- The entry `createConfig` emits for one file: path is the filename, url is
`fileName.replace(".md", "")`, title is the frontmatter `title` field; no
other part of the file is consulted. -/
def entryOf (f : ContentFile) : ConfigEntry :=
  { path := f.fileName
    url := jsReplaceFirst f.fileName ".md" ""
    title := f.fm.title }

/-- The stork configuration assembled by `createConfig`
(src/data/projects.ts lines 148–167): fixed `[input]` settings plus one entry
per file returned by `fs.readdirSync(postsDirectory)`. -/
structure StorkConfig where
  base_directory : String
  url_prefix : String
  frontmatter_handling : String
  files : List ConfigEntry
deriving Repr, DecidableEq

/-- The structured content of the configuration `createConfig` builds from the
enumerated directory. -/
def createConfig (dir : List ContentFile) : StorkConfig :=
  { base_directory := "posts"
    url_prefix := "https://healeycodes.com/"
    frontmatter_handling := "Omit"
    files := dir.map entryOf }

/-- Serialization of one entry, following the template string of
src/data/projects.ts lines 160–164. -/
def entryToml (e : ConfigEntry) : String :=
  "\x7b\n        path = \"" ++ e.path ++ "\",\n        url = \"" ++ e.url ++
    "\",\n        title = \"" ++ e.title ++ "\"\n\x7d,"

/-- Serialization of the whole configuration, following the string
concatenation of src/data/projects.ts lines 149–167. -/
def serializeConfig (c : StorkConfig) : String :=
  "\n[input]\nbase_directory = \"posts\"\nurl_prefix = \"https://healeycodes.com/\"\nfrontmatter_handling = \"Omit\"\nfiles = [" ++
    String.join (c.files.map entryToml) ++ "]\n"

/-- The externally visible effects the stork pipeline performs, in program
order: directory enumeration, file reads, the config write, the indexer
launch. -/
inductive Effect where
  | readDir (dir : String)
  | readFile (p : String)
  | writeFile (p : String) (contents : String)
  | execCmd (cmd : String)
deriving Repr, DecidableEq

/-- Effect trace of `createConfig` (src/data/projects.ts lines 148–169):
`fs.readdirSync`, then one `fs.readFileSync` per enumerated file, then the
single `fs.writeFileSync` of stork-posts.toml. -/
def createConfigTrace (dir : List ContentFile) : List Effect :=
  Effect.readDir "posts" ::
    (dir.map fun f => Effect.readFile ("posts/" ++ f.fileName)) ++
      [Effect.writeFile "stork-posts.toml" (serializeConfig (createConfig dir))]

/-- Effect trace of `generateStorkIndex` (src/data/projects.ts lines 171–184):
`createConfig()` runs to completion, then `execSync` launches stork.sh. -/
def generateStorkIndexTrace (dir : List ContentFile) : List Effect :=
  createConfigTrace dir ++ [Effect.execCmd "stork.sh"]

example : jsReplaceFirst "notes.txt" ".md" "" = "notes.txt" := by decide
example : jsReplaceFirst "claude-redact-env.md" ".md" "" = "claude-redact-env" := by decide
example : jsReplaceFirst "a.mdown.md" ".md" "" = "aown.md" := by decide
example : jsReplaceFirst "a.mdb.mdc" ".md" "" = "ab.mdc" := by decide

/-- The classes of exception the pipeline can raise, mirroring where a
JavaScript error can originate in the stork segment: a file-system call
(`readdirSync`, `readFileSync`, `writeFileSync`), the gray-matter frontmatter
parse, or the `execSync` child-process launch (which throws both on a launch
failure and on a non-zero exit code). -/
inductive JsError where
  | fsError (msg : String)
  | parseError (msg : String)
  | execError (msg : String)
deriving Repr, DecidableEq

/-- Sequencing of fallible per-file reads, as `fileNames.forEach` performs
them: the first thrown error aborts the whole loop. -/
def mapME (f : String → Except JsError ContentFile) :
    List String → Except JsError (List ContentFile)
  | [] => .ok []
  | n :: ns =>
    match f n with
    | .error e => .error e
    | .ok file =>
      match mapME f ns with
      | .error e => .error e
      | .ok files => .ok (file :: files)

/-- The ambient world a run of the stork segment observes: the outcome of the
directory enumeration, of each file's read-and-parse, of the config write,
and of the indexer subprocess (ok means exit code 0; error carries the thrown
launch failure or non-zero-exit error). -/
structure World where
  listing : Except JsError (List String)
  readParse : String → Except JsError ContentFile
  writeOutcome : Except JsError Unit
  execOutcome : Except JsError Unit

/-- Run of `createConfig` (src/data/projects.ts lines 148–169) in a given
world: enumerate the directory, read and parse every file, write the config.
No try/catch appears in `createConfig`, so every error propagates. -/
def createConfigRun (w : World) : Except JsError StorkConfig :=
  match w.listing with
  | .error e => .error e
  | .ok names =>
    match mapME w.readParse names with
    | .error e => .error e
    | .ok files =>
      match w.writeOutcome with
      | .error e => .error e
      | .ok _ => .ok (createConfig files)

/-- Run of `generateStorkIndex` (src/data/projects.ts lines 171–184):
`createConfig()` executes outside any try block; only the `execSync` launch is
wrapped in `try { ... } catch (e) { console.error(e) }`.  The result pairs the
written config with the caught-and-logged indexer error, if any. -/
def generateStorkIndexRun (w : World) :
    Except JsError (StorkConfig × Option JsError) :=
  match createConfigRun w with
  | .error e => .error e
  | .ok cfg =>
    match w.execOutcome with
    | .ok _ => .ok (cfg, none)
    | .error e => .ok (cfg, some e)

/-- Modelled from the spec: the typed Post record of §3 produced by the
Content Loader (lib/posts is not under src/): id derived from the filename
with extension stripped, required title and date, tags, description, draft
flag, and the raw body. The source filename is kept as the stable secondary
sort key of §4.1. -/
structure Post where
  fileName : String
  id : String
  title : String
  date : Nat
  tags : List String
  description : String
  draft : Bool
  content : String
deriving Repr, DecidableEq

/-- Modelled from the spec: the sort key of `loadAll()` (§4.1) — publication
date descending, ties broken by filename lexical order ascending. -/
def postOrder (a b : Post) : Prop :=
  b.date < a.date ∨ (a.date = b.date ∧ a.fileName ≤ b.fileName)

instance : DecidableRel postOrder := fun a b => by
  unfold postOrder; infer_instance

instance : IsTotal Post postOrder := by
  constructor
  intro a b
  rcases Nat.lt_trichotomy a.date b.date with h | h | h
  · exact Or.inr (Or.inl h)
  · rcases le_total a.fileName b.fileName with hf | hf
    · exact Or.inl (Or.inr ⟨h, hf⟩)
    · exact Or.inr (Or.inr ⟨h.symm, hf⟩)
  · exact Or.inl (Or.inl h)

instance : IsTrans Post postOrder := by
  constructor
  intro a b c hab hbc
  rcases hab with h1 | ⟨h1, hf1⟩ <;> rcases hbc with h2 | ⟨h2, hf2⟩
  · exact Or.inl (h2.trans h1)
  · exact Or.inl (h2 ▸ h1)
  · exact Or.inl (h1 ▸ h2)
  · exact Or.inr ⟨h1.trans h2, hf1.trans hf2⟩

/-- Characters of a filename up to (excluding) its last dot; a dotless name
is kept whole.  Auxiliary recursion for `specStripExtension`. -/
def stripExtAux : List Char → List Char
  | [] => []
  | c :: rest => if c = '.' ∧ '.' ∉ rest then [] else c :: stripExtAux rest

/-- Modelled from the spec: the slug/id derivation — the filename with its
extension (the part from the last dot onward) stripped.  This is the spec's
own wording for both the Post id and the search-entry url; it is compared
against the source's `replace(".md", "")`. -/
def specStripExtension (s : String) : String :=
  ⟨stripExtAux s.data⟩

/-- Modelled from the spec: construction of one Post from a parsed content
file (§3, §4.1). -/
def postOf (f : ContentFile) : Post :=
  { fileName := f.fileName
    id := specStripExtension f.fileName
    title := f.fm.title
    date := f.fm.date
    tags := f.fm.tags
    description := f.fm.description
    draft := f.fm.draft
    content := f.body }

/-- Modelled from the spec: `loadAll()` of the Content Loader (§4.1) — parse
every content file and sort date-descending with filename-ascending
tie-break (lib/posts is not under src/). -/
def loadAll (files : List ContentFile) : List Post :=
  (files.map postOf).insertionSort postOrder

/-- Modelled from the spec: one item of the FeedDocument (§3). -/
structure FeedItem where
  title : String
  link : String
  description : String
  pubDate : String
deriving Repr, DecidableEq

/-- Modelled from the spec: the FeedDocument (§3) — channel metadata plus the
ordered item sequence. -/
structure FeedDocument where
  channelTitle : String
  channelLink : String
  channelDescription : String
  items : List FeedItem
deriving Repr, DecidableEq

/-- Modelled from the spec: the fixed-grammar publication timestamp rendering
of a post date in the feed (§4.2). -/
def formatPubDate (d : Nat) : String :=
  "day+" ++ toString d

/-- Modelled from the spec: `build(posts)` of the Feed Generator (§4.2) — a
pure function mapping the sorted post sequence to a FeedDocument, one item
per post, in input order (lib/rss is not under src/). -/
def buildFeed (posts : List Post) : FeedDocument :=
  { channelTitle := "trevo.rs"
    channelLink := "https://trevo.rs"
    channelDescription := "Trevor Stenson's blog"
    items := posts.map fun p =>
      { title := p.title
        link := "https://trevo.rs/" ++ p.id
        description := p.description
        pubDate := formatPubDate p.date } }

/-- Modelled from the spec: one rendered feed item in the fixed XML-like
syndication grammar (§6). -/
def renderItem (it : FeedItem) : String :=
  "<item><title>" ++ it.title ++ "</title><link>" ++ it.link ++
    "</link><description>" ++ it.description ++ "</description><pubDate>" ++
    it.pubDate ++ "</pubDate></item>"

/-- Modelled from the spec: `render(doc)` of the Feed Generator (§4.2) — the
wire bytes of the feed document, a pure function of the document. -/
def renderFeed (doc : FeedDocument) : String :=
  "<rss><channel><title>" ++ doc.channelTitle ++ "</title><link>" ++
    doc.channelLink ++ "</link><description>" ++ doc.channelDescription ++
    "</description>" ++ String.join (doc.items.map renderItem) ++
    "</channel></rss>"

/-- Modelled from the spec: the RepoStatsSnapshot of §3 — aggregate counts
plus fetch and expiry timestamps (times in milliseconds since epoch, as
JavaScript `Date.now()` supplies them). -/
structure RepoStatsSnapshot where
  totalStars : Nat
  totalForks : Nat
  mostRecentPush : Nat
  fetchedAt : Nat
  expiry : Nat
deriving Repr, DecidableEq

/-- Modelled from the spec: one repository record of the statistics source
(§6) — star count, fork count, last-push timestamp. -/
structure Repo where
  stars : Nat
  forks : Nat
  pushedAt : Nat
deriving Repr, DecidableEq

/-- The cache time-to-live: 30 minutes, in milliseconds. -/
def ttlMs : Nat := 30 * 60 * 1000

/-- Modelled from the spec: the refresh path of the statistics cache (§4.4) —
sum stars and forks over the account's repositories, take the maximum
last-push timestamp, stamp fetch time and `expiry = now + TTL`
(lib/github is not under src/). -/
def freshSnapshot (repos : List Repo) (now : Nat) : RepoStatsSnapshot :=
  { totalStars := (repos.map Repo.stars).sum
    totalForks := (repos.map Repo.forks).sum
    mostRecentPush := (repos.map Repo.pushedAt).foldr max 0
    fetchedAt := now
    expiry := now + ttlMs }

/-- Modelled from the spec: the human-readable relative-duration formatter
applied at read time to `now − snapshot.mostRecentPush` (§4.4); rendered at
minute granularity. -/
def formatDuration (d : Nat) : String :=
  toString (d / 60000) ++ " minutes"

/-- Modelled from the spec: the record `statCounter` returns to the page —
the aggregate counts plus the derived `mostRecentPushFormatted` string. -/
structure StatsResult where
  totalStars : Nat
  totalForks : Nat
  mostRecentPushFormatted : String
deriving Repr, DecidableEq

/-- Modelled from the spec: `get(account)` of the Repository Statistics Cache
(§4.4) — if no snapshot is held or the held snapshot's expiry has passed,
build a fresh snapshot from the fetched repositories; otherwise return the
held snapshot unchanged.  The result pairs the (possibly refreshed) held
snapshot with the derived read-time record, whose
`mostRecentPushFormatted` is computed from `now − snapshot.mostRecentPush`
and is not a field of the snapshot (lib/github is not under src/). -/
def statCounterGet (cached : Option RepoStatsSnapshot) (repos : List Repo)
    (now : Nat) : RepoStatsSnapshot × StatsResult :=
  let snap :=
    match cached with
    | some s => if now < s.expiry then s else freshSnapshot repos now
    | none => freshSnapshot repos now
  (snap,
    { totalStars := snap.totalStars
      totalForks := snap.totalForks
      mostRecentPushFormatted := formatDuration (now - snap.mostRecentPush) })

/-- The unit multipliers of the third-party `ms` duration-string library, for
the unit spellings its grammar accepts (lower-cased). -/
def msUnitFactor (u : String) : Option Nat :=
  if u = "ms" ∨ u = "msec" ∨ u = "msecs" ∨ u = "millisecond" ∨ u = "milliseconds" then some 1
  else if u = "s" ∨ u = "sec" ∨ u = "secs" ∨ u = "second" ∨ u = "seconds" then some 1000
  else if u = "m" ∨ u = "min" ∨ u = "mins" ∨ u = "minute" ∨ u = "minutes" then some 60000
  else if u = "h" ∨ u = "hr" ∨ u = "hrs" ∨ u = "hour" ∨ u = "hours" then some 3600000
  else if u = "d" ∨ u = "day" ∨ u = "days" then some 86400000
  else if u = "w" ∨ u = "week" ∨ u = "weeks" then some 604800000
  else none

/-- Decimal value of a digit string, as `parseFloat` reads the numeric part
of an `ms` argument. -/
def digitsVal (l : List Char) : Nat :=
  l.foldl (fun acc c => acc * 10 + (c.toNat - 48)) 0

/-- The third-party `ms` library call as the projects page uses it
(src/data/projects.ts line 273, `ms('30min')`): a decimal count followed by a
unit spelling, giving milliseconds. -/
def msLib (s : String) : Option Nat :=
  let digits := s.data.takeWhile Char.isDigit
  let unit : String := ⟨s.data.dropWhile Char.isDigit⟩
  if digits.isEmpty then none
  else
    match msUnitFactor unit with
    | some factor => some (digitsVal digits * factor)
    | none => none

/-- The revalidation budget of the projects page
(src/data/projects.ts line 273): `revalidate: ms('30min') / 1000`. -/
def revalidateSeconds : Nat :=
  (msLib "30min").getD 0 / 1000

/-- The artifacts one build pass produces: the sorted catalog, the rendered
feed, the stork configuration, and the caught-and-logged indexer error, if
any. -/
structure BuildOutputs where
  catalog : List Post
  feed : String
  storkConfig : StorkConfig
  indexerLog : Option JsError
deriving Repr, DecidableEq

/-- One build pass over a world: load the catalog from the content directory,
render the feed from it, then run the stork segment
(`generateStorkIndexRun`).  Loader errors are fatal (§4.1); the indexer error
is caught inside `generateStorkIndex` and only logged. -/
def buildPass (w : World) : Except JsError BuildOutputs :=
  match w.listing with
  | .error e => .error e
  | .ok names =>
    match mapME w.readParse names with
    | .error e => .error e
    | .ok files =>
      match generateStorkIndexRun w with
      | .error e => .error e
      | .ok (cfg, log) =>
        .ok { catalog := loadAll files
              feed := renderFeed (buildFeed (loadAll files))
              storkConfig := cfg
              indexerLog := log }

/-- C4: the repository-statistics cache uses a fixed TTL of exactly 30
minutes — a snapshot's expiry equals its fetch time plus 30 minutes
(1 800 000 ms), and the projects page's revalidation budget
`ms('30min') / 1000` evaluates to exactly 1800 seconds. -/
theorem c4_ttl_thirty_minutes :
    (∀ (repos : List Repo) (now : Nat),
        (freshSnapshot repos now).expiry = now + 30 * 60 * 1000) ∧
      revalidateSeconds = 1800 := by
  constructor
  · intro repos now
    rfl
  · decide

/-- C3: `mostRecentPushFormatted` is derived at read time from the difference
between the read time and the snapshot's most-recent-push timestamp; a fresh
read returns the held snapshot unchanged, so two reads at different times
within the same freshness window can return different (advancing) formatted
strings over the very same snapshot. -/
theorem c3_formatted_at_read_time :
    (∀ (s : RepoStatsSnapshot) (repos : List Repo) (t : Nat), t < s.expiry →
        (statCounterGet (some s) repos t).1 = s ∧
          (statCounterGet (some s) repos t).2.mostRecentPushFormatted =
            formatDuration (t - s.mostRecentPush)) ∧
      ∃ (s : RepoStatsSnapshot) (t₁ t₂ : Nat), t₁ < t₂ ∧ t₂ < s.expiry ∧
        (statCounterGet (some s) [] t₁).1 = (statCounterGet (some s) [] t₂).1 ∧
          (statCounterGet (some s) [] t₁).2.mostRecentPushFormatted ≠
            (statCounterGet (some s) [] t₂).2.mostRecentPushFormatted := by
  constructor
  · intro s repos t ht
    constructor
    · simp [statCounterGet, ht]
    · simp [statCounterGet, ht]
  · refine ⟨⟨7, 3, 0, 0, 1800000⟩, 60000, 120000, by decide, by decide, by decide, by decide⟩

/-- Witness for C3: at read times 60 s and 120 s over the same fresh
snapshot, the returned snapshot is the held one and the formatted string is
computed from the read time. -/
theorem c3_formatted_at_read_time_witness :
    (statCounterGet (some ⟨7, 3, 0, 0, 1800000⟩) [] 60000).1 = ⟨7, 3, 0, 0, 1800000⟩ ∧
      (statCounterGet (some ⟨7, 3, 0, 0, 1800000⟩) [] 60000).2.mostRecentPushFormatted =
        formatDuration (60000 - 0) :=
  c3_formatted_at_read_time.1 ⟨7, 3, 0, 0, 1800000⟩ [] 60000 (by decide)

/-- C8: the feed generator is deterministic — rendering the feed built from
an unchanged post sequence twice yields byte-identical wire output. -/
theorem c8_feed_deterministic :
    ∀ posts₁ posts₂ : List Post, posts₁ = posts₂ →
      renderFeed (buildFeed posts₁) = renderFeed (buildFeed posts₂) := by
  intro posts₁ posts₂ h
  rw [h]

/-- Witness for C8: the two renderings of an unchanged one-post sequence
coincide. -/
theorem c8_feed_deterministic_witness :
    renderFeed (buildFeed [⟨"a.md", "a", "T", 5, [], "", false, "b"⟩]) =
      renderFeed (buildFeed [⟨"a.md", "a", "T", 5, [], "", false, "b"⟩]) :=
  c8_feed_deterministic [⟨"a.md", "a", "T", 5, [], "", false, "b"⟩]
    [⟨"a.md", "a", "T", 5, [], "", false, "b"⟩] rfl

/-- C7: `loadAll()` is sorted by publication date descending, and any two
posts with equal dates appear in ascending lexical order of their
filenames. -/
theorem c7_loadAll_sorted :
    ∀ files : List ContentFile, (loadAll files).Pairwise
      (fun a b => b.date ≤ a.date ∧ (a.date = b.date → a.fileName ≤ b.fileName)) := by
  intro files
  have h := List.sorted_insertionSort postOrder (files.map postOf)
  refine h.imp ?_
  intro a b hab
  rcases hab with h1 | ⟨h1, h2⟩
  · refine ⟨le_of_lt h1, fun he => absurd h1 ?_⟩
    omega
  · exact ⟨le_of_eq h1.symm, fun _ => h2⟩

/-- Witness for C7: the sorted catalog of a concrete two-file directory with
equal dates satisfies the ordering property. -/
theorem c7_loadAll_sorted_witness :
    (loadAll [⟨"b.md", ⟨"X", 1, [], "", false⟩, ""⟩,
        ⟨"a.md", ⟨"Y", 1, [], "", false⟩, ""⟩]).Pairwise
      (fun a b => b.date ≤ a.date ∧ (a.date = b.date → a.fileName ≤ b.fileName)) :=
  c7_loadAll_sorted [⟨"b.md", ⟨"X", 1, [], "", false⟩, ""⟩,
    ⟨"a.md", ⟨"Y", 1, [], "", false⟩, ""⟩]

/-- C9: a search-config entry depends only on the file's name and its
frontmatter title — files differing only in body, date, tags, description or
draft flag yield identical entries — and every enumerated file, drafts
included, contributes its entry to the config. -/
theorem c9_entry_depends_only_on_name_title :
    (∀ f g : ContentFile, f.fileName = g.fileName → f.fm.title = g.fm.title →
        entryOf f = entryOf g) ∧
      ∀ (dir : List ContentFile) (f : ContentFile), f ∈ dir →
        entryOf f ∈ (createConfig dir).files := by
  constructor
  · intro f g hn ht
    simp [entryOf, hn, ht]
  · intro dir f hf
    exact List.mem_map_of_mem entryOf hf

/-- Witness for C9: a draft file and a non-draft file sharing name and title
but nothing else yield the same entry, and the draft file's entry is in the
config built from a directory containing it. -/
theorem c9_entry_depends_only_on_name_title_witness :
    entryOf ⟨"a.md", ⟨"T", 1, ["x"], "d1", true⟩, "body one"⟩ =
        entryOf ⟨"a.md", ⟨"T", 2, [], "d2", false⟩, "body two"⟩ ∧
      entryOf ⟨"a.md", ⟨"T", 1, ["x"], "d1", true⟩, "body one"⟩ ∈
        (createConfig [⟨"a.md", ⟨"T", 1, ["x"], "d1", true⟩, "body one"⟩]).files :=
  ⟨c9_entry_depends_only_on_name_title.1 ⟨"a.md", ⟨"T", 1, ["x"], "d1", true⟩, "body one"⟩
      ⟨"a.md", ⟨"T", 2, [], "d2", false⟩, "body two"⟩ rfl rfl,
    c9_entry_depends_only_on_name_title.2 [⟨"a.md", ⟨"T", 1, ["x"], "d1", true⟩, "body one"⟩]
      ⟨"a.md", ⟨"T", 1, ["x"], "d1", true⟩, "body one"⟩ (by simp)⟩

/-- C10: only the indexer launch is guarded in `generateStorkIndex` — any
error of `createConfig` (directory enumeration, file read, frontmatter
parse, config write) propagates to the caller, while an error thrown by the
`execSync` indexer invocation is caught and only logged. -/
theorem c10_only_launch_guarded :
    ∀ w : World,
      (∀ e, createConfigRun w = .error e → generateStorkIndexRun w = .error e) ∧
      ∀ cfg e, createConfigRun w = .ok cfg → w.execOutcome = .error e →
        generateStorkIndexRun w = .ok (cfg, some e) := by
  intro w
  constructor
  · intro e h
    simp only [generateStorkIndexRun, h]
  · intro cfg e h he
    simp only [generateStorkIndexRun, h, he]

/-- Witness for C10: a failing directory enumeration propagates out of
`generateStorkIndex`, while a failing indexer launch is caught and logged. -/
theorem c10_only_launch_guarded_witness :
    generateStorkIndexRun
        ⟨.error (.fsError "ENOENT"), fun _ => .error (.parseError "p"),
          .ok (), .ok ()⟩ = .error (.fsError "ENOENT") ∧
      generateStorkIndexRun
        ⟨.ok [], fun _ => .error (.parseError "p"), .ok (),
          .error (.execError "exit 1")⟩ =
        .ok (createConfig [], some (.execError "exit 1")) :=
  ⟨(c10_only_launch_guarded
        ⟨.error (.fsError "ENOENT"), fun _ => .error (.parseError "p"),
          .ok (), .ok ()⟩).1 (.fsError "ENOENT") rfl,
    (c10_only_launch_guarded
        ⟨.ok [], fun _ => .error (.parseError "p"), .ok (),
          .error (.execError "exit 1")⟩).2 (createConfig []) (.execError "exit 1") rfl rfl⟩

/-- Characterization of a build pass by the four observable outcomes of its
world: loader and config-write errors are fatal, the indexer error is only
logged. -/
theorem buildPass_char (w : World) :
    buildPass w =
      match w.listing with
      | .error e => .error e
      | .ok names =>
        match mapME w.readParse names with
        | .error e => .error e
        | .ok files =>
          match w.writeOutcome with
          | .error e => .error e
          | .ok _ =>
            match w.execOutcome with
            | .error e =>
              .ok ⟨loadAll files, renderFeed (buildFeed (loadAll files)),
                createConfig files, some e⟩
            | .ok _ =>
              .ok ⟨loadAll files, renderFeed (buildFeed (loadAll files)),
                createConfig files, none⟩ := by
  unfold buildPass generateStorkIndexRun createConfigRun
  cases hl : w.listing with
  | error e => rfl
  | ok names =>
    cases hm : mapME w.readParse names with
    | error e => simp [hm]
    | ok files =>
      cases hw : w.writeOutcome with
      | error e => simp [hm, hw]
      | ok u =>
        cases he : w.execOutcome with
        | error e => simp [hm, hw, he]
        | ok v => simp [hm, hw, he]

/-- C1: a failing indexer subprocess (non-zero exit or launch failure) is
caught and logged inside `generateStorkIndex`: the build pass still returns
normally, and the catalog, feed and written config are exactly those of the
corresponding pass whose indexer succeeds — only the logged error differs. -/
theorem c1_indexer_failure_nonfatal :
    ∀ (w : World) (e : JsError) (out : BuildOutputs),
      w.execOutcome = .error e →
      buildPass { w with execOutcome := .ok () } = .ok out →
      buildPass w = .ok ⟨out.catalog, out.feed, out.storkConfig, some e⟩ := by
  intro w e out he hok
  rw [buildPass_char] at hok ⊢
  cases hl : w.listing with
  | error e2 => simp [hl] at hok
  | ok names =>
    cases hm : mapME w.readParse names with
    | error e2 => simp [hl, hm] at hok
    | ok files =>
      cases hw : w.writeOutcome with
      | error e2 => simp [hl, hm, hw] at hok
      | ok u =>
        simp only [hl, hm, hw, he] at hok ⊢
        simp at hok
        simp [← hok]

/-- A concrete world whose indexer launch throws (stork.sh exits with
code 1). -/
def execFailWorld : World :=
  ⟨.ok ["a.md"], fun n => .ok ⟨n, ⟨"T", 1, [], "", false⟩, "B"⟩, .ok (),
    .error (.execError "exit 1")⟩

/-- The outputs of the same world when the indexer succeeds. -/
def execOkOutputs : BuildOutputs :=
  ⟨loadAll [⟨"a.md", ⟨"T", 1, [], "", false⟩, "B"⟩],
    renderFeed (buildFeed (loadAll [⟨"a.md", ⟨"T", 1, [], "", false⟩, "B"⟩])),
    createConfig [⟨"a.md", ⟨"T", 1, [], "", false⟩, "B"⟩], none⟩

/-- Witness for C1: with stork.sh exiting 1, the pass completes and only the
logged error differs from the successful pass. -/
theorem c1_indexer_failure_nonfatal_witness :
    buildPass execFailWorld =
      .ok ⟨execOkOutputs.catalog, execOkOutputs.feed, execOkOutputs.storkConfig,
        some (.execError "exit 1")⟩ :=
  c1_indexer_failure_nonfatal execFailWorld (.execError "exit 1") execOkOutputs rfl rfl

/-- C6: an empty content directory raises no error — the catalog is empty,
the feed has zero items, the search config has zero entries, and the build
pass returns normally. -/
theorem c6_empty_directory :
    ∀ w : World, w.listing = .ok [] → w.writeOutcome = .ok () →
      loadAll [] = [] ∧ (buildFeed []).items = [] ∧ (createConfig []).files = [] ∧
        ∃ log, buildPass w = .ok ⟨[], renderFeed (buildFeed []), createConfig [], log⟩ := by
  intro w hl hw
  refine ⟨rfl, rfl, rfl, ?_⟩
  cases he : w.execOutcome with
  | error e =>
    refine ⟨some e, ?_⟩
    rw [buildPass_char, hl, hw, he]
    rfl
  | ok u =>
    refine ⟨none, ?_⟩
    rw [buildPass_char, hl, hw, he]
    rfl

/-- Witness for C6: a concrete world enumerating an empty directory builds
empty artifacts without an error. -/
theorem c6_empty_directory_witness :
    loadAll [] = [] ∧ (buildFeed []).items = [] ∧ (createConfig []).files = [] ∧
      ∃ log, buildPass ⟨.ok [], fun _ => .error (.parseError "x"), .ok (), .ok ()⟩ =
        .ok ⟨[], renderFeed (buildFeed []), createConfig [], log⟩ :=
  c6_empty_directory ⟨.ok [], fun _ => .error (.parseError "x"), .ok (), .ok ()⟩ rfl rfl

/-- The effects of `createConfig` are directory and file reads and the config
write; `createConfig` itself never launches a subprocess. -/
theorem execCmd_not_in_createConfigTrace :
    ∀ (dir : List ContentFile) (e : Effect), e ∈ createConfigTrace dir →
      ∀ cmd, e ≠ Effect.execCmd cmd := by
  intro dir e he cmd
  unfold createConfigTrace at he
  rcases List.mem_cons.mp he with h | h
  · subst h; simp
  · rcases List.mem_append.mp h with h2 | h2
    · rcases List.mem_map.mp h2 with ⟨f, _, hf⟩
      subst hf; simp
    · simp only [List.mem_singleton] at h2
      subst h2; simp

/-- C5: in every run of `generateStorkIndex`, the serialized configuration is
written to stork-posts.toml strictly before the indexer executable is
launched — every write effect of the trace precedes every launch effect. -/
theorem c5_config_written_before_launch :
    ∀ (dir : List ContentFile) (i j : Nat) (p c : String),
      (generateStorkIndexTrace dir)[i]? = some (Effect.writeFile p c) →
      (generateStorkIndexTrace dir)[j]? = some (Effect.execCmd "stork.sh") →
      i < j := by
  intro dir i j p c hi hj
  by_cases hjn : j < (createConfigTrace dir).length
  · rw [generateStorkIndexTrace, List.getElem?_append_left hjn] at hj
    exact absurd rfl (execCmd_not_in_createConfigTrace dir _ (List.getElem?_mem hj) "stork.sh")
  · push_neg at hjn
    have hilen : i < (generateStorkIndexTrace dir).length := (List.getElem?_eq_some.mp hi).1
    have hlen : (generateStorkIndexTrace dir).length = (createConfigTrace dir).length + 1 := by
      simp [generateStorkIndexTrace]
    by_cases hin : i < (createConfigTrace dir).length
    · omega
    · push_neg at hin
      have hieq : i = (createConfigTrace dir).length := by omega
      rw [generateStorkIndexTrace, List.getElem?_append_right hin] at hi
      simp [hieq] at hi

/-- Witness for C5: on the one-file directory, the config write sits at index
2 of the trace and the launch at index 3, so 2 < 3. -/
theorem c5_config_written_before_launch_witness :
    (2 : Nat) < 3 :=
  c5_config_written_before_launch [⟨"a.md", ⟨"T", 1, [], "", false⟩, "B"⟩] 2 3
    "stork-posts.toml"
    (serializeConfig (createConfig [⟨"a.md", ⟨"T", 1, [], "", false⟩, "B"⟩]))
    rfl rfl

/-- The character sequence of the pattern `".md"` that
`fileName.replace(".md", "")` searches for. -/
def mdPatChars : List Char := ['.', 'm', 'd']

/-- The pattern occurs as a contiguous substring of the character list. -/
def occursIn (pat l : List Char) : Prop := pat <:+: l

instance (pat l : List Char) : Decidable (occursIn pat l) :=
  List.decidableInfix pat l

/-- First-occurrence specification of the JS replace recursion: either the
pattern does not occur and the input is returned unchanged, or the input
splits around the leftmost occurrence of the pattern — every other
decomposition around the pattern has a prefix at least as long — and exactly
that occurrence is replaced. -/
theorem jsReplaceFirstAux_spec (repl pat : List Char) (hp : pat ≠ []) :
    ∀ l, (¬ occursIn pat l ∧ jsReplaceFirstAux repl pat l = l) ∨
      ∃ a b, l = a ++ pat ++ b ∧ jsReplaceFirstAux repl pat l = a ++ repl ++ b ∧
        ∀ a2 b2, l = a2 ++ pat ++ b2 → a.length ≤ a2.length := by
  intro l
  induction l with
  | nil =>
    refine Or.inl ⟨?_, rfl⟩
    rintro ⟨s, t, hst⟩
    rcases List.append_eq_nil.mp hst with ⟨hsp, ht⟩
    rcases List.append_eq_nil.mp hsp with ⟨hs, hp0⟩
    exact hp hp0
  | cons c rest ih =>
    by_cases hpre : pat <+: c :: rest
    · obtain ⟨u, hu⟩ := hpre
      refine Or.inr ⟨[], u, ?_, ?_, ?_⟩
      · simpa using hu.symm
      · rw [jsReplaceFirstAux, if_pos ⟨u, hu⟩, ← hu, List.drop_left]
        simp
      · intro a2 b2 _
        simp
    · rcases ih with ⟨hno, heq⟩ | ⟨a, b, hab, heq, hmin⟩
      · refine Or.inl ⟨?_, ?_⟩
        · rintro ⟨s, t, hst⟩
          cases s with
          | nil => exact hpre ⟨t, by simpa using hst⟩
          | cons x s2 =>
            simp only [List.cons_append, List.cons.injEq] at hst
            exact hno ⟨s2, t, hst.2⟩
        · rw [jsReplaceFirstAux, if_neg hpre, heq]
      · refine Or.inr ⟨c :: a, b, ?_, ?_, ?_⟩
        · rw [hab]
          simp
        · rw [jsReplaceFirstAux, if_neg hpre, heq]
          simp
        · intro a2 b2 hl2
          cases a2 with
          | nil => exact absurd ⟨b2, by simpa using hl2.symm⟩ hpre
          | cons x a3 =>
            simp only [List.cons_append, List.cons.injEq] at hl2
            simpa using Nat.succ_le_succ (hmin a3 b2 hl2.2)

/-- If `".md"` is a prefix of `c :: t ++ ".md"` then `".md"` already occurs
in `c :: t`: the pattern cannot straddle the boundary with the appended
extension, because its second and third characters are not dots. -/
theorem mdPat_prefix_cases {c : Char} {t : List Char}
    (h : mdPatChars <+: c :: (t ++ mdPatChars)) :
    occursIn mdPatChars (c :: t) := by
  obtain ⟨u, hu⟩ := h
  have hu1 : '.' :: 'm' :: 'd' :: u = c :: (t ++ mdPatChars) := hu
  injection hu1 with e1 hu2
  cases t with
  | nil =>
    have hu2a : 'm' :: 'd' :: u = '.' :: 'm' :: 'd' :: [] := hu2
    injection hu2a with e2 _
    exact absurd e2 (by decide)
  | cons x t2 =>
    have hu2a : 'm' :: 'd' :: u = x :: (t2 ++ mdPatChars) := hu2
    injection hu2a with e2 hu3
    cases t2 with
    | nil =>
      have hu3a : 'd' :: u = '.' :: 'm' :: 'd' :: [] := hu3
      injection hu3a with e3 _
      exact absurd e3 (by decide)
    | cons y t3 =>
      have hu3a : 'd' :: u = y :: (t3 ++ mdPatChars) := hu3
      injection hu3a with e3 hu4
      refine ⟨[], t3, ?_⟩
      rw [← e1, ← e2, ← e3]
      rfl

/-- On a filename of the form `t ++ ".md"` whose stem `t` does not contain
`".md"`, the JS replace removes exactly the final extension. -/
theorem jsReplaceFirstAux_final (repl : List Char) :
    ∀ t : List Char, ¬ occursIn mdPatChars t →
      jsReplaceFirstAux repl mdPatChars (t ++ mdPatChars) = t ++ repl := by
  intro t
  induction t with
  | nil =>
    intro _
    show jsReplaceFirstAux repl mdPatChars ('.' :: 'm' :: 'd' :: []) = repl
    rw [jsReplaceFirstAux, if_pos (by decide : mdPatChars <+: '.' :: 'm' :: 'd' :: [])]
    rw [show ('.' :: 'm' :: 'd' :: ([] : List Char)).drop mdPatChars.length = [] from by decide]
    exact List.append_nil repl
  | cons c t2 ih =>
    intro h
    have h2 : ¬ occursIn mdPatChars t2 := by
      rintro ⟨s, u, hsu⟩
      exact h ⟨c :: s, u, by rw [← hsu]; rfl⟩
    show jsReplaceFirstAux repl mdPatChars (c :: (t2 ++ mdPatChars)) = c :: (t2 ++ repl)
    rw [jsReplaceFirstAux, if_neg (fun hpre => h (mdPat_prefix_cases hpre)), ih h2]

/-- Stripping the extension from `t ++ ".md"` recovers the stem `t`. -/
theorem stripExtAux_append_md (t : List Char) :
    stripExtAux (t ++ mdPatChars) = t := by
  induction t with
  | nil => decide
  | cons c t2 ih =>
    show stripExtAux (c :: (t2 ++ mdPatChars)) = c :: t2
    rw [stripExtAux,
      if_neg (fun hc => hc.2 (List.mem_append_right t2 (by decide : '.' ∈ mdPatChars))), ih]

/-- C2 counterexample: enumerating a directory holding `notes.txt`,
`createConfig` emits the entry url `notes.txt` — the `replace(".md", "")`
call leaves a non-`.md` filename untouched — while the filename with its
extension stripped is `notes`; so the claim's url equation fails on this
directory. -/
theorem c2_url_counterexample :
    (createConfig [⟨"notes.txt", ⟨"T", 0, [], "", false⟩, ""⟩]).files.map ConfigEntry.url =
        ["notes.txt"] ∧
      specStripExtension "notes.txt" = "notes" ∧
      ("notes.txt" : String) ≠ "notes" :=
  ⟨by decide, by decide, by decide⟩

/-- C2 (amended): the config has exactly one entry per enumerated file, and
each entry's url is the filename with the first occurrence of the substring
`".md"` removed — the exhibited decomposition is leftmost: every other
decomposition around `".md"` has a prefix at least as long — and the
filename is unchanged when `".md"` does not occur; for a filename consisting
of a stem free of `".md"` followed by the `".md"` extension this coincides
with the filename with its extension stripped. -/
theorem c2_one_entry_per_file_url_first_md_removed :
    ∀ dir : List ContentFile,
      (createConfig dir).files.length = dir.length ∧
      ∀ f ∈ dir,
        ((¬ occursIn mdPatChars f.fileName.data ∧ (entryOf f).url = f.fileName) ∨
          ∃ a b, f.fileName.data = a ++ mdPatChars ++ b ∧ (entryOf f).url = ⟨a ++ b⟩ ∧
            ∀ a2 b2, f.fileName.data = a2 ++ mdPatChars ++ b2 → a.length ≤ a2.length) ∧
        ∀ t, f.fileName.data = t ++ mdPatChars → ¬ occursIn mdPatChars t →
          (entryOf f).url = specStripExtension f.fileName := by
  intro dir
  constructor
  · simp [createConfig]
  · intro f _
    constructor
    · rcases jsReplaceFirstAux_spec [] mdPatChars (by decide) f.fileName.data with
        ⟨hno, heq⟩ | ⟨a, b, hab, heq, hmin⟩
      · exact Or.inl ⟨hno, congrArg String.mk heq⟩
      · refine Or.inr ⟨a, b, hab, ?_, hmin⟩
        have h2 : jsReplaceFirstAux [] mdPatChars f.fileName.data = a ++ b := by
          rw [heq]
          simp
        exact congrArg String.mk h2
    · intro t ht hno
      have h2 : jsReplaceFirstAux [] mdPatChars f.fileName.data = t := by
        rw [ht, jsReplaceFirstAux_final [] t hno]
        simp
      have h3 : stripExtAux f.fileName.data = t := by
        rw [ht, stripExtAux_append_md]
      show String.mk (jsReplaceFirstAux [] mdPatChars f.fileName.data) =
        String.mk (stripExtAux f.fileName.data)
      rw [h2, h3]

/-- A content file of the repository's posts directory, used to instantiate
the amended C2 statement. -/
def mdFile : ContentFile :=
  ⟨"claude-redact-env.md",
    ⟨"Hiding Secrets from Your AI Pair Programmer", 0, [], "", true⟩, "B"⟩

/-- Witness for the amended C2: on the directory holding
claude-redact-env.md the config has one entry and its url equals the
filename with the extension stripped. -/
theorem c2_one_entry_per_file_url_first_md_removed_witness :
    (createConfig [mdFile]).files.length = [mdFile].length ∧
      (entryOf mdFile).url = specStripExtension mdFile.fileName :=
  ⟨(c2_one_entry_per_file_url_first_md_removed [mdFile]).1,
    ((c2_one_entry_per_file_url_first_md_removed [mdFile]).2 mdFile (by decide)).2
      ("claude-redact-env".data) (by decide) (by decide)⟩

end TrevoRs
